import Mathlib

/-!
Verification of the progress-tracking and certificate-eligibility engine of an
e-learning backend.  The JavaScript source is embedded shallowly: mongoose
documents become structures, route handlers and model methods become pure
state-transforming functions, and JavaScript numbers become `ℕ`/`ℤ`/`ℚ` with
`Math.round` modelled explicitly.  All definitions are translated from the
source files (`src/models/Enrollment.js`, `src/models/Progress.js`,
`src/models/Course.js`, `src/routes/progress.js` including the embedded
`CertificateService`, `src/routes/certificates.js`, the quiz-attempt route and
the certificate schema).
-/

namespace Aiq

/-- JavaScript `Math.round` on a non-NaN numeric value, modelled on `ℚ`:
`Math.round(x)` rounds half-up, i.e. `⌊x + 1/2⌋`. -/
def jsRound (q : ℚ) : ℤ := ⌊q + 1 / 2⌋

/-- The percentage computation `Math.round((a / b) * 100)` used throughout the
source, in executable integer arithmetic.  `roundPct_eq_jsRound` below proves
that for `0 < b` this is exactly `jsRound ((a : ℚ) / b * 100)`. -/
def roundPct (a b : ℕ) : ℕ := (200 * a + b) / (2 * b)

/-- The integer form `roundPct` agrees with the literal translation
`Math.round((a / b) * 100)` of the source whenever the denominator is
positive. -/
theorem roundPct_eq_jsRound (a b : ℕ) (hb : 0 < b) :
    (roundPct a b : ℤ) = jsRound ((a : ℚ) / b * 100) := by
  have hbq : (b : ℚ) ≠ 0 := Nat.cast_ne_zero.mpr hb.ne'
  have h1 : (a : ℚ) / b * 100 + 1 / 2 = ((200 * a + b : ℕ) : ℤ) / ((2 * b : ℕ) : ℚ) := by
    push_cast
    field_simp
    ring
  rw [jsRound, h1, Rat.floor_intCast_div_natCast, roundPct]
  push_cast [Int.ofNat_tdiv]
  norm_num

/-- JavaScript `x || d` for a numeric field `x` with numeric default `d`:
`0` is falsy, every other value of `ℕ` is truthy. -/
def orDefault (n d : ℕ) : ℕ := if n = 0 then d else n

/-! ## Quiz grading (quiz-attempt route, `POST /attempt`) -/

/-- Question `type` field: `enum: ['single', 'multiple']` in `quizQuestionSchema`. -/
inductive QType
| single
| multiple
deriving DecidableEq, Repr

/-- A quiz question as read by the grading code: its `type` and its
`correctAnswers` array of 0-based option indices. -/
structure Question where
  qtype : QType
  correctAnswers : List ℕ
deriving DecidableEq, Repr

/-- Per-question correctness from the `POST /attempt` handler:
for `single`, `selectedIndices.length === 1 && correctIndices.includes(selectedIndices[0])`
(the `[0]` access is guarded by the length test, so `headD 0` is that element);
otherwise `correctIndices.length === selectedIndices.length &&
correctIndices.every(idx => selectedIndices.includes(idx)) &&
selectedIndices.every(idx => correctIndices.includes(idx))`. -/
def gradeAnswer (q : Question) (selectedIndices : List ℕ) : Bool :=
  match q.qtype with
  | .single =>
      selectedIndices.length == 1 && q.correctAnswers.contains (selectedIndices.headD 0)
  | .multiple =>
      q.correctAnswers.length == selectedIndices.length &&
      q.correctAnswers.all (fun idx => selectedIndices.contains idx) &&
      selectedIndices.all (fun idx => q.correctAnswers.contains idx)

/-- One entry of the `processedAnswers` array built by the handler. -/
structure ProcessedAnswer where
  questionIndex : ℕ
  selectedAnswers : List ℕ
  isCorrect : Bool
deriving DecidableEq, Repr

/-- The loop `answers.map((answer, index) => ...)`: each submitted answer is
graded against `questions[index]`.  When the submission has more answers than
the quiz has questions, `questions[index]` is `undefined` and reading
`question.correctAnswers` throws a `TypeError` (caught by the route, which
responds 500); this is the `none` case. -/
def processAnswers (questions : List Question) (answers : List (List ℕ)) :
    Option (List ProcessedAnswer) :=
  if questions.length < answers.length then none
  else some (answers.enum.map (fun p =>
    ⟨p.1, p.2, gradeAnswer (questions.getD p.1 ⟨.single, []⟩) p.2⟩))

/-- The `correctAnswers` counter incremented inside the grading loop. -/
def correctCount (pa : List ProcessedAnswer) : ℕ :=
  (pa.filter (fun a => a.isCorrect)).length

/-- Outcome of the aggregate-score computation.  `nan` is the IEEE result of
`Math.round((0 / 0) * 100)` for an empty question list; `errored` is the
thrown `TypeError` of `processAnswers`. -/
inductive ScoreResult
| errored
| nan
| value (s : ℕ)
deriving DecidableEq, Repr

/-- The line `const score = Math.round((correctAnswers / questions.length) * 100)`
from the attempt handler.  Float division of zero by zero yields `NaN`, and
`Math.round(NaN)` is `NaN`; otherwise the value is `roundPct`
(= `Math.round((correct / total) * 100)` by `roundPct_eq_jsRound`). -/
def quizScore (questions : List Question) (answers : List (List ℕ)) : ScoreResult :=
  match processAnswers questions answers with
  | none => .errored
  | some pa =>
      if questions.length = 0 then .nan
      else .value (roundPct (correctCount pa) questions.length)

/-! ## Course structure (`src/models/Course.js`) -/

/-- Lecture `type` field: `enum: ['video', 'quiz', 'note']`. -/
inductive LectureType
| video
| quiz
| note
deriving DecidableEq, Repr

/-- A lecture as read by the progress and eligibility code: its `type`, its
`duration` field, the nested `video.duration`, and the nested quiz payload
(`quiz.isGraded`, `quiz.passingScore`, `quiz.questions`). -/
structure Lecture where
  type : LectureType
  duration : ℕ := 0
  videoDuration : ℕ := 0
  isGraded : Bool := false
  quizPassingScore : ℕ := 70
  questions : List Question := []
deriving DecidableEq, Repr

/-- A section: an ordered array of lectures. -/
structure Section where
  lectures : List Lecture
deriving DecidableEq, Repr

/-- The course `certificate` configuration block used by the certificate
service. -/
structure CertificateConfig where
  enabled : Bool := true
  completionRequirement : ℕ := 100
  passingScore : ℕ := 70
deriving DecidableEq, Repr

/-- A course document as read by the progress/certificate code: `sections`,
the `certificate` configuration and the stored `totalDuration` statistic. -/
structure Course where
  sections : List Section
  certificate : CertificateConfig := {}
  totalDuration : ℕ := 0
deriving DecidableEq, Repr

/-- The property read `course.totalLessons` in
`enrollmentSchema.methods.calculateProgress`.  `courseSchema` declares
`totalLectures` but no path named `totalLessons` (and no virtual of that
name), so on every course document this mongoose read yields `undefined`,
modelled as `none`; the JavaScript guard `totalLessons > 0` is then false. -/
def Course.totalLessons (_ : Course) : Option ℕ := none

/-- The duration a lecture contributes in `calculateProgress`:
`lecture.type === 'video' && lecture.video?.duration ? lecture.video.duration
: lecture.duration || 0` (`0` is falsy, and `duration || 0` is `duration` on
`ℕ`). -/
def Lecture.effDuration (l : Lecture) : ℕ :=
  if l.type = .video ∧ l.videoDuration ≠ 0 then l.videoDuration else l.duration

/-! ## Enrollment progress (`src/models/Enrollment.js`, `src/routes/progress.js`) -/

/-- One element of `enrollment.progress.completedLessons`:
`{sectionIndex, lessonIndex, completedAt}`. -/
structure CompletedLesson where
  sectionIndex : ℕ
  lessonIndex : ℕ
  completedAt : ℕ := 0
deriving DecidableEq, Repr

/-- The membership test of the `calculateProgress` loop:
`this.progress.completedLessons.some(completed => completed.sectionIndex ===
sectionIndex && completed.lessonIndex === lectureIndex)`. -/
def isCompleted (completed : List CompletedLesson) (sectionIndex lectureIndex : ℕ) : Bool :=
  completed.any (fun cl => cl.sectionIndex == sectionIndex && cl.lessonIndex == lectureIndex)

/-- The `totalDuration` accumulator of `calculateProgress`: every lecture of
every section contributes its effective duration. -/
def totalDurationOf (course : Course) : ℕ :=
  (course.sections.enum.map (fun s =>
    (s.2.lectures.enum.map (fun l => l.2.effDuration)).sum)).sum

/-- The `completedDuration` accumulator of `calculateProgress`: a lecture
contributes its effective duration exactly when the completed-lessons list
holds its `(sectionIndex, lectureIndex)` pair.  A completion record whose
indices match no lecture of the course contributes nothing (to either sum). -/
def completedDurationOf (course : Course) (completed : List CompletedLesson) : ℕ :=
  (course.sections.enum.map (fun s =>
    (s.2.lectures.enum.map (fun l =>
      if isCompleted completed s.1 l.1 then l.2.effDuration else 0)).sum)).sum

/-- The percentage computed by `enrollmentSchema.methods.calculateProgress`:
duration-weighted when `totalDuration > 0`, otherwise the count-based
fallback `totalLessons > 0 ? Math.round((completedLessons / totalLessons) *
100) : 0` (with `course.totalLessons` the undeclared path, see
`Course.totalLessons`). -/
def calcOverallProgress (course : Course) (completed : List CompletedLesson) : ℕ :=
  let t := totalDurationOf course
  if 0 < t then roundPct (completedDurationOf course completed) t
  else
    match course.totalLessons with
    | some n => if 0 < n then roundPct completed.length n else 0
    | none => 0

/-- The mutable part of an enrollment document touched by the progress
routes: `progress.completedLessons`, `progress.overallProgress`,
`progress.lastAccessedLesson`, `progress.totalTimeSpent`, and the top-level
`completedAt` and `enrolledAt`. -/
structure EnrollmentState where
  completedLessons : List CompletedLesson := []
  overallProgress : ℕ := 0
  lastAccessedLesson : Option (ℕ × ℕ) := none
  totalTimeSpent : ℕ := 0
  completedAt : Option ℕ := none
  enrolledAt : ℕ := 0
deriving DecidableEq, Repr

/-- The method `enrollmentSchema.methods.calculateProgress` as a state update: store the
recomputed percentage in `progress.overallProgress`, and if it is `100` and
`completedAt` is unset, set `completedAt = new Date()` (the parameter `now`). -/
def Enrollment.calculateProgress (course : Course) (s : EnrollmentState) (now : ℕ) :
    EnrollmentState :=
  let p := calcOverallProgress course s.completedLessons
  let s' := { s with overallProgress := p }
  if p = 100 ∧ s'.completedAt = none then { s' with completedAt := some now } else s'

/-- The state mutation of the `POST /lesson-complete` handler (before its
certificate side effect): push a `{sectionIndex, lessonIndex, completedAt}`
record unless one with the same indices exists, set `lastAccessedLesson`
unconditionally, add `timeSpent` when truthy, then run `calculateProgress`
and save. -/
def lessonComplete (course : Course) (s : EnrollmentState)
    (sectionIndex lessonIndex : ℕ) (timeSpent : ℕ) (now : ℕ) : EnrollmentState :=
  let s1 :=
    if isCompleted s.completedLessons sectionIndex lessonIndex then s
    else { s with completedLessons :=
      s.completedLessons ++ [⟨sectionIndex, lessonIndex, now⟩] }
  let s2 := { s1 with lastAccessedLesson := some (sectionIndex, lessonIndex) }
  let s3 := if timeSpent ≠ 0 then { s2 with totalTimeSpent := s2.totalTimeSpent + timeSpent }
            else s2
  Enrollment.calculateProgress course s3 now

/-- The state mutation of the `POST /lesson-uncomplete` handler: filter the
matching record out of `completedLessons`, subtract `timeSpent` when truthy
and not larger than the stored total, recompute progress, and finally — with
no condition on the recomputed percentage — clear `completedAt` whenever it
is set (`if (enrollment.completedAt) { enrollment.completedAt = undefined }`). -/
def lessonUncomplete (course : Course) (s : EnrollmentState)
    (sectionIndex lessonIndex : ℕ) (timeSpent : ℕ) (now : ℕ) : EnrollmentState :=
  let kept := s.completedLessons.filter
    (fun cl => !(cl.sectionIndex == sectionIndex && cl.lessonIndex == lessonIndex))
  let s1 := { s with completedLessons := kept }
  let s2 := if timeSpent ≠ 0 ∧ timeSpent ≤ s1.totalTimeSpent then
              { s1 with totalTimeSpent := s1.totalTimeSpent - timeSpent }
            else s1
  let s3 := Enrollment.calculateProgress course s2 now
  if s3.completedAt.isSome then { s3 with completedAt := none } else s3

/-! ## Certificates (`certificateSchema`, `CertificateService`,
`src/routes/certificates.js`, certificate block of `POST /lesson-complete`) -/

/-- Certificate `grade` field: `enum: ['A+', 'A', 'B+', 'B', 'C+', 'C',
'Pass']`, default `'Pass'`. -/
inductive Grade
| aPlus
| a
| bPlus
| b
| cPlus
| c
| pass
deriving DecidableEq, Repr

/-- The `metadata` sub-document of a certificate; fields a given code path
does not set stay `undefined` (`none`). -/
structure CertMetadata where
  totalDuration : Option ℕ := none
  completionTime : Option ℕ := none
  finalScore : Option ℚ := none
  completionPercentage : Option ℕ := none
  quizAverageScore : Option ℚ := none
deriving DecidableEq, Repr

/-- A certificate document (`certificateSchema`): the `(user, course)`
reference pair, the generated `certificateId` string, `completedAt`, the
letter `grade` and the metadata snapshot. -/
structure Certificate where
  user : ℕ
  course : ℕ
  certificateId : String
  completedAt : ℕ
  grade : Grade := .pass
  metadata : CertMetadata := {}
deriving DecidableEq, Repr

/-- The storage layer's acceptance rule for certificate creation.
`certificateSchema` declares exactly one uniqueness constraint:
`certificateId: { type: String, required: true, unique: true }`.  There is no
index — unique or otherwise — on the `(user, course)` pair, so an insert is
rejected only when the `certificateId` collides. -/
def certInsert (store : List Certificate) (c : Certificate) : Option (List Certificate) :=
  if store.any (fun c' => c'.certificateId == c.certificateId) then none
  else some (store ++ [c])

/-- The `Certificate.findOne({ user, course })` lookup used by the handlers
and by `checkEligibility`. -/
def findCertificate (store : List Certificate) (userId courseId : ℕ) : Option Certificate :=
  store.find? (fun c => c.user == userId && c.course == courseId)

/-- The expression `Math.ceil((completedAt - enrolledAt) / (1000 * 60 * 60 * 24))` for
millisecond timestamps, on `ℕ` (the source computes this only with
`completedAt ≥ enrolledAt`). -/
def ceilDays (completedAt enrolledAt : ℕ) : ℕ :=
  (completedAt - enrolledAt + (86400000 - 1)) / 86400000

/-- The certificate block of the `POST /lesson-complete` handler (runs after
`calculateProgress` and `save`): when the freshly saved progress is 100 and
`completedAt` is set, look up a certificate for `(user, course)` and, when
none exists, build and save one — `completedAt` from the enrollment,
`metadata` of `totalDuration`, `completionTime` and `finalScore: 100` —
without any call into `CertificateService`.  Returns the updated enrollment
state and the certificate store after the side effect. -/
def lessonCompleteHandler (course : Course) (userId courseId : ℕ)
    (s : EnrollmentState) (sectionIndex lessonIndex : ℕ) (timeSpent now : ℕ)
    (store : List Certificate) (freshId : String) :
    EnrollmentState × List Certificate :=
  let s' := lessonComplete course s sectionIndex lessonIndex timeSpent now
  if s'.overallProgress = 100 ∧ s'.completedAt.isSome then
    match findCertificate store userId courseId with
    | some _ => (s', store)
    | none =>
        let cert : Certificate :=
          { user := userId, course := courseId, certificateId := freshId,
            completedAt := s'.completedAt.getD now,
            metadata := { totalDuration := some course.totalDuration,
                          completionTime := some (ceilDays (s'.completedAt.getD now) s'.enrolledAt),
                          finalScore := some 100 } }
        (s', store ++ [cert])
  else (s', store)

/-! ## Certificate eligibility (`CertificateService.checkEligibility`) -/

/-- One element of `progress.quizScores` in the `Progress` model
(`src/models/Progress.js`): `addQuizScore` keeps at most one entry per
`(sectionIndex, lectureIndex, quizId)`, replacing any previous score for the
same quiz. -/
structure QuizScore where
  sectionIndex : ℕ
  lectureIndex : ℕ
  quizId : ℕ
  score : ℕ
deriving DecidableEq, Repr

/-- The fields of a `Progress` document read by `checkEligibility`. -/
structure ProgressRec where
  completionPercentage : ℕ := 0
  quizScores : List QuizScore := []
  completedAt : Option ℕ := none
  completionTime : ℕ := 0
deriving DecidableEq, Repr

/-- The ineligibility reasons of `checkEligibility`, one constructor per
`return { eligible: false, reason: ... }` site. -/
inductive EligReason
| certNotEnabled
| notEnrolled
| alreadyIssued
| noProgress
| completionBelow
| quizBelow
deriving DecidableEq, Repr

/-- The `data` object of an eligible result: completion percentage, quiz
average, completion timestamp (`progress.completedAt || new Date()`), course
`totalDuration` and `progress.completionTime`. -/
structure EligData where
  completionPercentage : ℕ
  quizAverageScore : ℚ
  completedAt : ℕ
  totalDuration : ℕ
  completionTime : ℕ
deriving DecidableEq, Repr

/-- Result of `checkEligibility`: either an ineligibility reason (carrying
the existing certificate in the already-issued case) or the eligibility
data. -/
inductive EligResult
| ineligible (reason : EligReason) (certificate : Option Certificate)
| eligible (data : EligData)
deriving DecidableEq, Repr

/-- The test `course.sections.some(section => section.lectures.some(lecture =>
lecture.type === 'quiz'))` — any quiz lecture at all; `quiz.isGraded` is not
consulted. -/
def hasQuizzes (course : Course) : Bool :=
  course.sections.any (fun s => s.lectures.any (fun l => l.type == .quiz))

/-- The quiz average `quizScores.reduce((sum, s) => sum + s.score, 0) /
quizScores.length` as an exact rational. -/
def quizAvg (scores : List QuizScore) : ℚ :=
  ((scores.map (fun qs => qs.score)).sum : ℚ) / (scores.length : ℚ)

/-- The service method `CertificateService.checkEligibility(userId, courseId)`, with the four
database lookups it performs passed in as their results: the course
(`Course.findById`), the active enrollment (`Enrollment.findOne` with
`isActive: true`), the existing certificate (`Certificate.findOne`) and the
progress record (`Progress.findOne`).  The checks run in exactly the source
order.  The quiz branch compares `totalScore / quizScores.length <
requiredScore`; with a positive length this is the integer comparison
`totalScore < requiredScore * length` used here (see
`sum_lt_mul_iff_quizAvg_lt`). -/
def checkEligibility (courseOpt : Option Course) (enrollmentOpt : Option EnrollmentState)
    (certOpt : Option Certificate) (progressOpt : Option ProgressRec) (now : ℕ) :
    EligResult :=
  match courseOpt with
  | none => .ineligible .certNotEnabled none
  | some course =>
    if course.certificate.enabled = false then .ineligible .certNotEnabled none
    else
      match enrollmentOpt with
      | none => .ineligible .notEnrolled none
      | some _ =>
        match certOpt with
        | some existing => .ineligible .alreadyIssued (some existing)
        | none =>
          match progressOpt with
          | none => .ineligible .noProgress none
          | some progress =>
            let completionPercentage := progress.completionPercentage
            let requiredCompletion := orDefault course.certificate.completionRequirement 100
            if completionPercentage < requiredCompletion then
              .ineligible .completionBelow none
            else
              if hasQuizzes course ∧ progress.quizScores ≠ [] then
                let totalScore := (progress.quizScores.map (fun qs => qs.score)).sum
                let requiredScore := orDefault course.certificate.passingScore 70
                if totalScore < requiredScore * progress.quizScores.length then
                  .ineligible .quizBelow none
                else
                  .eligible ⟨completionPercentage, quizAvg progress.quizScores,
                    progress.completedAt.getD now, course.totalDuration,
                    progress.completionTime⟩
              else
                .eligible ⟨completionPercentage, 100, progress.completedAt.getD now,
                  course.totalDuration, progress.completionTime⟩

/-- The integer comparison used in `checkEligibility` is the source's
`quizAverageScore < requiredScore` whenever the score list is nonempty. -/
theorem sum_lt_mul_iff_quizAvg_lt (scores : List QuizScore) (r : ℕ) (h : scores ≠ []) :
    ((scores.map (fun qs => qs.score)).sum < r * scores.length) ↔ quizAvg scores < r := by
  have hlen : 0 < scores.length := List.length_pos.mpr h
  have hlenq : (0 : ℚ) < scores.length := by exact_mod_cast hlen
  rw [quizAvg, div_lt_iff₀ hlenq]
  have hsum : (List.map (fun qs => ((qs.score : ℕ) : ℚ)) scores).sum
      = (((List.map (fun qs => qs.score) scores).sum : ℕ) : ℚ) := by
    rw [Nat.cast_list_sum, List.map_map]
    rfl
  rw [hsum, ← Nat.cast_mul, Nat.cast_lt]

/-- The service method `CertificateService.calculateGrade(completionPercentage,
quizAverageScore)`: the fixed threshold table over `overallScore =
(completionPercentage + quizAverageScore) / 2`. -/
def calculateGrade (completionPercentage quizAverageScore : ℚ) : Grade :=
  let overallScore := (completionPercentage + quizAverageScore) / 2
  if 95 ≤ overallScore then .aPlus
  else if 90 ≤ overallScore then .a
  else if 85 ≤ overallScore then .bPlus
  else if 80 ≤ overallScore then .b
  else if 75 ≤ overallScore then .cPlus
  else if 70 ≤ overallScore then .c
  else .pass

/-- Result of `CertificateService.generateCertificate`: the route returns
`{ success: true, certificate }` or `{ success: false, error }` (the thrown
ineligibility reason). -/
inductive GenResult
| success (cert : Certificate)
| failure (reason : EligReason)
deriving DecidableEq, Repr

/-- The service method `CertificateService.generateCertificate(userId, courseId)`: re-runs
`checkEligibility` and throws its reason when not eligible; otherwise builds
the certificate from the eligibility data (grade from `calculateGrade`,
metadata snapshot of completion, quiz average, duration and completion
time). -/
def generateCertificate (courseOpt : Option Course) (enrollmentOpt : Option EnrollmentState)
    (certOpt : Option Certificate) (progressOpt : Option ProgressRec) (now : ℕ)
    (userId courseId : ℕ) (freshId : String) : GenResult :=
  match checkEligibility courseOpt enrollmentOpt certOpt progressOpt now with
  | .ineligible reason _ => .failure reason
  | .eligible data =>
      .success
        { user := userId, course := courseId, certificateId := freshId,
          completedAt := data.completedAt,
          grade := calculateGrade data.completionPercentage data.quizAverageScore,
          metadata := { totalDuration := some data.totalDuration,
                        completionTime := some data.completionTime,
                        finalScore := some data.quizAverageScore,
                        completionPercentage := some data.completionPercentage,
                        quizAverageScore := some data.quizAverageScore } }

/-- Result of the `POST /generate/:courseId` route of
`src/routes/certificates.js`. -/
inductive SimpleGenResult
| alreadyExists (cert : Certificate)
| notCompleted
| courseNotFound
| created (cert : Certificate) (store : List Certificate)
deriving DecidableEq, Repr

/-- The `POST /generate/:courseId` handler: an application-level pre-check
(`Certificate.findOne({ user, course })`) returns the existing certificate;
otherwise it requires an enrollment whose `completedAt` exists, then builds
and saves a certificate (grade `'Pass'`, `finalScore: 100`) with an
explicitly generated `certificateId`. -/
def generateSimpleHandler (store : List Certificate) (userId courseId : ℕ)
    (enrollmentOpt : Option EnrollmentState) (courseOpt : Option Course)
    (freshId : String) : SimpleGenResult :=
  match findCertificate store userId courseId with
  | some existing => .alreadyExists existing
  | none =>
    match enrollmentOpt with
    | none => .notCompleted
    | some enrollment =>
      match enrollment.completedAt with
      | none => .notCompleted
      | some completedAt =>
        match courseOpt with
        | none => .courseNotFound
        | some course =>
          let cert : Certificate :=
            { user := userId, course := courseId, certificateId := freshId,
              completedAt := completedAt, grade := .pass,
              metadata := { totalDuration := some course.totalDuration,
                            completionTime := some (ceilDays completedAt enrollment.enrolledAt),
                            finalScore := some 100 } }
          .created cert (store ++ [cert])

/-! ## Supporting lemmas -/

/-- The value `roundPct a b` is at most 100 when `a ≤ b` and `b` is positive. -/
theorem roundPct_le_100 (a b : ℕ) (hab : a ≤ b) (hb : 0 < b) : roundPct a b ≤ 100 := by
  have h2b : 0 < 2 * b := by omega
  have hlt : 200 * a + b < 101 * (2 * b) := by omega
  have := (Nat.div_lt_iff_lt_mul h2b).mpr hlt
  unfold roundPct
  omega

/-- The completed-duration accumulator never exceeds the total-duration
accumulator: each lecture contributes at most its effective duration. -/
theorem completedDurationOf_le (course : Course) (completed : List CompletedLesson) :
    completedDurationOf course completed ≤ totalDurationOf course := by
  unfold completedDurationOf totalDurationOf
  refine List.sum_le_sum ?_
  intro s _
  refine List.sum_le_sum ?_
  intro l _
  split <;> simp

/-- The percentage computed by `calculateProgress` is bounded by 100 for every
course structure and every completed-lessons list (orphaned records included). -/
theorem calcOverallProgress_le_100 (course : Course) (completed : List CompletedLesson) :
    calcOverallProgress course completed ≤ 100 := by
  unfold calcOverallProgress
  simp only [Course.totalLessons]
  split
  · exact roundPct_le_100 _ _ (completedDurationOf_le course completed) (by assumption)
  · omega

@[simp]
theorem calculateProgress_completedLessons (course : Course) (s : EnrollmentState) (now : ℕ) :
    (Enrollment.calculateProgress course s now).completedLessons = s.completedLessons := by
  unfold Enrollment.calculateProgress
  dsimp only
  split <;> rfl

@[simp]
theorem calculateProgress_overallProgress (course : Course) (s : EnrollmentState) (now : ℕ) :
    (Enrollment.calculateProgress course s now).overallProgress =
      calcOverallProgress course s.completedLessons := by
  unfold Enrollment.calculateProgress
  dsimp only
  split <;> rfl

@[simp]
theorem calculateProgress_totalTimeSpent (course : Course) (s : EnrollmentState) (now : ℕ) :
    (Enrollment.calculateProgress course s now).totalTimeSpent = s.totalTimeSpent := by
  unfold Enrollment.calculateProgress
  dsimp only
  split <;> rfl

@[simp]
theorem calculateProgress_lastAccessedLesson (course : Course) (s : EnrollmentState) (now : ℕ) :
    (Enrollment.calculateProgress course s now).lastAccessedLesson = s.lastAccessedLesson := by
  unfold Enrollment.calculateProgress
  dsimp only
  split <;> rfl

@[simp]
theorem calculateProgress_enrolledAt (course : Course) (s : EnrollmentState) (now : ℕ) :
    (Enrollment.calculateProgress course s now).enrolledAt = s.enrolledAt := by
  unfold Enrollment.calculateProgress
  dsimp only
  split <;> rfl

/-- The method `calculateProgress` never clears `completedAt`: once set it stays set. -/
theorem calculateProgress_completedAt_of_some (course : Course) (s : EnrollmentState)
    (now d : ℕ) (h : s.completedAt = some d) :
    (Enrollment.calculateProgress course s now).completedAt = some d := by
  unfold Enrollment.calculateProgress
  dsimp only
  split
  · next hc => rw [h] at hc; exact absurd hc.2 (by simp)
  · exact h

/-- The completed-lessons list produced by `lessonComplete`: unchanged when
the pair is already present, otherwise the pushed record is appended. -/
theorem lessonComplete_completedLessons (course : Course) (s : EnrollmentState)
    (si li t now : ℕ) :
    (lessonComplete course s si li t now).completedLessons =
      if isCompleted s.completedLessons si li then s.completedLessons
      else s.completedLessons ++ [⟨si, li, now⟩] := by
  unfold lessonComplete
  split <;> split <;> simp_all

/-- The percentage stored by `lessonComplete` is the recomputed percentage of
its own completed-lessons list (the state it saves is consistent). -/
theorem lessonComplete_overallProgress (course : Course) (s : EnrollmentState)
    (si li t now : ℕ) :
    (lessonComplete course s si li t now).overallProgress =
      calcOverallProgress course (lessonComplete course s si li t now).completedLessons := by
  unfold lessonComplete
  split <;> split <;> simp

/-- After `lessonComplete`, the target pair is in the completed-lessons list. -/
theorem isCompleted_lessonComplete (course : Course) (s : EnrollmentState)
    (si li t now : ℕ) :
    isCompleted (lessonComplete course s si li t now).completedLessons si li = true := by
  rw [lessonComplete_completedLessons]
  split
  · assumption
  · simp [isCompleted]

/-! ## Claim theorems -/

/-- C4.  For every course structure (zero total duration and orphaned
completion records included) and every enrollment state, the
`overallProgress` value computed and stored by
`enrollmentSchema.methods.calculateProgress` lies between 0 and 100. -/
theorem overallProgress_bounded (course : Course) (s : EnrollmentState) (now : ℕ) :
    0 ≤ (Enrollment.calculateProgress course s now).overallProgress ∧
      (Enrollment.calculateProgress course s now).overallProgress ≤ 100 := by
  refine ⟨Nat.zero_le _, ?_⟩
  rw [calculateProgress_overallProgress]
  exact calcOverallProgress_le_100 course s.completedLessons

/-- C7.  Completing the same `(sectionIndex, lessonIndex)` twice yields the
same number of completed-lesson records as completing it once, and the second
call leaves `overallProgress` unchanged (only time-spent may additionally
accumulate). -/
theorem lessonComplete_idempotent (course : Course) (s : EnrollmentState)
    (si li t t' now now' : ℕ) :
    (lessonComplete course (lessonComplete course s si li t now) si li t' now').completedLessons.length
        = (lessonComplete course s si li t now).completedLessons.length ∧
      (lessonComplete course (lessonComplete course s si li t now) si li t' now').overallProgress
        = (lessonComplete course s si li t now).overallProgress := by
  have hmem := isCompleted_lessonComplete course s si li t now
  have hlist : (lessonComplete course (lessonComplete course s si li t now) si li t' now').completedLessons
      = (lessonComplete course s si li t now).completedLessons := by
    rw [lessonComplete_completedLessons, hmem]
    simp
  refine ⟨by rw [hlist], ?_⟩
  rw [lessonComplete_overallProgress, hlist, ← lessonComplete_overallProgress]

/-- C9 (amended).  The `POST /lesson-uncomplete` handler always leaves
`completedAt` unset: the final `if (enrollment.completedAt)` block clears it
whenever it is set after recomputation, with no condition on the recomputed
percentage. -/
theorem lessonUncomplete_clears_completedAt (course : Course) (s : EnrollmentState)
    (si li t now : ℕ) :
    (lessonUncomplete course s si li t now).completedAt = none := by
  unfold lessonUncomplete
  dsimp only
  split <;> split <;> simp_all [Option.not_isSome_iff_eq_none]

/-- C10.  When the course has certificates enabled and the user has an active
enrollment, an existing certificate short-circuits `checkEligibility` to the
already-issued result carrying that certificate, whatever the progress
record — present, regressed or missing. -/
theorem existing_certificate_short_circuits (course : Course) (e : EnrollmentState)
    (cert : Certificate) (progressOpt : Option ProgressRec) (now : ℕ)
    (hen : course.certificate.enabled = true) :
    checkEligibility (some course) (some e) (some cert) progressOpt now =
      .ineligible .alreadyIssued (some cert) := by
  unfold checkEligibility
  simp [hen]

/-- Witness for `existing_certificate_short_circuits`: a concrete course with
certificates enabled, an enrollment, an existing certificate and a missing
progress record. -/
theorem existing_certificate_short_circuits_witness :
    checkEligibility (some { sections := [] }) (some {})
        (some { user := 7, course := 3, certificateId := "CERT-1", completedAt := 5 })
        none 9 =
      .ineligible .alreadyIssued
        (some { user := 7, course := 3, certificateId := "CERT-1", completedAt := 5 }) :=
  existing_certificate_short_circuits { sections := [] } {}
    { user := 7, course := 3, certificateId := "CERT-1", completedAt := 5 } none 9 rfl

/-- The completed-lessons list after `lessonUncomplete` is the filtered list. -/
theorem lessonUncomplete_completedLessons (course : Course) (s : EnrollmentState)
    (si li t now : ℕ) :
    (lessonUncomplete course s si li t now).completedLessons =
      s.completedLessons.filter
        (fun cl => !(cl.sectionIndex == si && cl.lessonIndex == li)) := by
  unfold lessonUncomplete
  dsimp only
  split <;> split <;> simp

/-- The percentage after `lessonUncomplete` is the recomputed percentage of
the filtered list. -/
theorem lessonUncomplete_overallProgress (course : Course) (s : EnrollmentState)
    (si li t now : ℕ) :
    (lessonUncomplete course s si li t now).overallProgress =
      calcOverallProgress course
        (s.completedLessons.filter
          (fun cl => !(cl.sectionIndex == si && cl.lessonIndex == li))) := by
  unfold lessonUncomplete
  dsimp only
  split <;> split <;> simp

/-- A one-lecture course: a single video lecture of 100 seconds. -/
def courseOneLecture : Course :=
  { sections := [{ lectures := [{ type := .video, videoDuration := 100 }] }] }

/-- An enrollment state that has already completed the single lecture of
`courseOneLecture`, at 100% with `completedAt` set. -/
def stateAllComplete : EnrollmentState :=
  { completedLessons := [⟨0, 0, 0⟩], overallProgress := 100, completedAt := some 0 }

/-- C8 (amended).  `uncomplete(complete(state, L))` restores `completedLessons`
and `overallProgress` provided the lecture was not already completed and the
stored percentage was consistent (equal to its own recomputation — true of
every state the handlers save); when the lecture was already completed, the
`complete` call is a no-op but `uncomplete` removes the pre-existing record,
so the pre-state is not restored (see the counterexample). -/
theorem uncomplete_complete_inverse (course : Course) (s : EnrollmentState)
    (si li now now' : ℕ)
    (hnot : isCompleted s.completedLessons si li = false)
    (hcons : s.overallProgress = calcOverallProgress course s.completedLessons) :
    (lessonUncomplete course (lessonComplete course s si li 0 now) si li 0 now').completedLessons
        = s.completedLessons ∧
      (lessonUncomplete course (lessonComplete course s si li 0 now) si li 0 now').overallProgress
        = s.overallProgress := by
  have h1 : (lessonComplete course s si li 0 now).completedLessons
      = s.completedLessons ++ [⟨si, li, now⟩] := by
    rw [lessonComplete_completedLessons, hnot]
    simp
  have hall : ∀ a ∈ s.completedLessons,
      (!(a.sectionIndex == si && a.lessonIndex == li)) = true := by
    rw [isCompleted] at hnot
    intro a ha
    have h3 := List.any_eq_false.mp hnot a ha
    simp only [Bool.not_eq_true] at h3
    simp [h3]
  have hkeep : (s.completedLessons ++ [(⟨si, li, now⟩ : CompletedLesson)]).filter
      (fun cl => !(cl.sectionIndex == si && cl.lessonIndex == li)) = s.completedLessons := by
    rw [List.filter_append, List.filter_eq_self.mpr hall]
    simp
  constructor
  · rw [lessonUncomplete_completedLessons, h1, hkeep]
  · rw [lessonUncomplete_overallProgress, h1, hkeep, hcons]

/-- C8 counterexample.  With the lecture already completed, completing it
again (a no-op) and then uncompleting it empties the completed list and drops
`overallProgress` from 100 to 0 — the pre-`complete` state is not restored. -/
theorem inverse_fails_on_already_completed :
    (lessonUncomplete courseOneLecture
        (lessonComplete courseOneLecture stateAllComplete 0 0 0 1) 0 0 0 2).completedLessons
        ≠ stateAllComplete.completedLessons ∧
      (lessonUncomplete courseOneLecture
        (lessonComplete courseOneLecture stateAllComplete 0 0 0 1) 0 0 0 2).overallProgress
        ≠ stateAllComplete.overallProgress := by
  decide

/-- Witness for `uncomplete_complete_inverse`: a fresh enrollment on the
one-lecture course. -/
theorem uncomplete_complete_inverse_witness :
    (lessonUncomplete courseOneLecture
        (lessonComplete courseOneLecture {} 0 0 0 1) 0 0 0 2).completedLessons
        = EnrollmentState.completedLessons {} ∧
      (lessonUncomplete courseOneLecture
        (lessonComplete courseOneLecture {} 0 0 0 1) 0 0 0 2).overallProgress
        = EnrollmentState.overallProgress {} :=
  uncomplete_complete_inverse courseOneLecture {} 0 0 1 2 (by decide) (by decide)

/-- C9 counterexample.  Uncompleting an absent record of a still-fully-complete
course leaves the recomputed percentage at 100 yet clears `completedAt` — the
claimed "remains set when still at 100" behaviour does not hold. -/
theorem completedAt_cleared_at_100 :
    (lessonUncomplete courseOneLecture stateAllComplete 1 1 0 2).overallProgress = 100 ∧
      (lessonUncomplete courseOneLecture stateAllComplete 1 1 0 2).completedAt = none := by
  decide

/-- Appending an element never returns the same list. -/
theorem append_singleton_ne {α : Type} (l : List α) (a : α) : l ++ [a] ≠ l := by
  intro h
  have := congrArg List.length h
  simp at this

/-- The one-lecture course with certificates disabled
(`certificate.enabled = false`). -/
def courseCertDisabled : Course :=
  { sections := [{ lectures := [{ type := .video, videoDuration := 100 }] }],
    certificate := { enabled := false } }

/-- C1 (amended).  The `POST /lesson-complete` handler itself persists a
certificate — without calling `checkEligibility` — exactly when the freshly
recomputed progress is 100, `completedAt` is set, and no certificate exists
for the pair; the `CertificateService.generateCertificate` path, by contrast,
re-runs `checkEligibility` and fails with its reason whenever it is
ineligible. -/
theorem certificate_creation_paths
    (course : Course) (userId courseId : ℕ) (s : EnrollmentState)
    (si li t now : ℕ) (store : List Certificate) (freshId : String) :
    ((lessonCompleteHandler course userId courseId s si li t now store freshId).2 ≠ store ↔
      ((lessonComplete course s si li t now).overallProgress = 100 ∧
        (lessonComplete course s si li t now).completedAt.isSome = true ∧
        findCertificate store userId courseId = none)) ∧
      (∀ (courseOpt : Option Course) (enrollmentOpt : Option EnrollmentState)
          (certOpt : Option Certificate) (progressOpt : Option ProgressRec)
          (now' userId' courseId' : ℕ) (freshId' : String) (reason : EligReason)
          (c : Option Certificate),
        checkEligibility courseOpt enrollmentOpt certOpt progressOpt now' =
            .ineligible reason c →
        generateCertificate courseOpt enrollmentOpt certOpt progressOpt now' userId'
            courseId' freshId' = .failure reason) := by
  constructor
  · unfold lessonCompleteHandler
    dsimp only
    split
    · next hc =>
        cases hfind : findCertificate store userId courseId with
        | some c => simp [hfind, hc]
        | none => simp [hfind, hc, append_singleton_ne]
    · next hc =>
        simp only [ne_eq, not_true_eq_false, false_iff, not_and]
        intro h100 hsome _
        exact hc ⟨h100, hsome⟩
  · intro courseOpt enrollmentOpt certOpt progressOpt now' userId' courseId' freshId' reason c h
    unfold generateCertificate
    rw [h]

/-- C1 counterexample.  On a certificates-disabled course, completing the only
lecture drives progress to 100 and the handler persists a certificate for the
pair, while `checkEligibility` on the same data is ineligible
(`certificate not enabled`) — a certificate is persisted without passing the
eligibility check. -/
theorem lessonComplete_creates_certificate_unchecked :
    ((lessonCompleteHandler courseCertDisabled 7 3 {} 0 0 0 5 [] "CERT-1").2.map
        (fun c => (c.user, c.course))) = [(7, 3)] ∧
      checkEligibility (some courseCertDisabled) (some ({} : EnrollmentState)) none none 5 =
        .ineligible .certNotEnabled none := by
  constructor
  · decide
  · decide

/-- Witness for `certificate_creation_paths`: on the disabled-certificate
course, `generateCertificate` fails with the eligibility reason. -/
theorem certificate_creation_paths_witness :
    generateCertificate (some courseCertDisabled) (some ({} : EnrollmentState)) none none
        5 7 3 "CERT-2" = .failure .certNotEnabled :=
  (certificate_creation_paths courseCertDisabled 7 3 {} 0 0 0 5 [] "CERT-1").2
    (some courseCertDisabled) (some {}) none none 5 7 3 "CERT-2" .certNotEnabled none
    (by decide)

/-- A persisted certificate for user 7 on course 3. -/
def certA : Certificate :=
  { user := 7, course := 3, certificateId := "CERT-A", completedAt := 1 }

/-- A second certificate for the same `(user, course)` pair with a different
`certificateId`. -/
def certB : Certificate :=
  { user := 7, course := 3, certificateId := "CERT-B", completedAt := 2 }

/-- C3 (amended).  The storage layer's only uniqueness constraint is on
`certificateId`: an insert with a fresh `certificateId` is accepted no matter
what `(user, course)` pairs the store already holds, so at-most-one
certificate per pair is not a storage-layer invariant; duplicates are
prevented only by the application-level pre-check of the generate handler,
which returns the existing certificate for the pair. -/
theorem certificate_storage_uniqueness :
    (∀ (store : List Certificate) (c : Certificate),
        store.any (fun e => e.certificateId == c.certificateId) = false →
        certInsert store c = some (store ++ [c])) ∧
      (∀ (store : List Certificate) (userId courseId : ℕ)
          (enrollmentOpt : Option EnrollmentState) (courseOpt : Option Course)
          (freshId : String) (existing : Certificate),
        findCertificate store userId courseId = some existing →
        generateSimpleHandler store userId courseId enrollmentOpt courseOpt freshId =
          .alreadyExists existing) := by
  constructor
  · intro store c h
    unfold certInsert
    simp [h]
  · intro store userId courseId enrollmentOpt courseOpt freshId existing h
    unfold generateSimpleHandler
    rw [h]

/-- C3 counterexample.  Starting from an empty store, the storage layer
accepts a certificate for `(7, 3)` and then a second certificate for the very
same pair (its `certificateId` is fresh): the duplicate pair is not rejected
at the storage layer, and the resulting reachable state holds two
certificates for one pair. -/
theorem duplicate_pair_accepted_by_store :
    certInsert [] certA = some [certA] ∧
      certInsert [certA] certB = some [certA, certB] ∧
      certA.user = certB.user ∧ certA.course = certB.course ∧
      certA.certificateId ≠ certB.certificateId := by
  refine ⟨by decide, by decide, rfl, rfl, by decide⟩

/-- Witness for `certificate_storage_uniqueness`: the duplicate-pair insert is
accepted, and the handler pre-check returns the existing certificate. -/
theorem certificate_storage_uniqueness_witness :
    certInsert [certA] certB = some [certA, certB] ∧
      generateSimpleHandler [certA] 7 3 none none "CERT-C" = .alreadyExists certA :=
  ⟨certificate_storage_uniqueness.1 [certA] certB (by decide),
    certificate_storage_uniqueness.2 [certA] 7 3 none none "CERT-C" certA (by decide)⟩

/-- A course whose only lecture is an ungraded quiz (`quiz.isGraded = false`),
with certificates enabled and default thresholds. -/
def courseUngradedQuiz : Course :=
  { sections := [{ lectures := [{ type := .quiz }] }] }

/-- A progress record at 100% whose single retained quiz score is 50. -/
def progressQuiz50 : ProgressRec :=
  { completionPercentage := 100, quizScores := [⟨0, 0, 0, 50⟩] }

/-- C2 (amended).  Past the enabled/enrolled/no-certificate/progress/completion
checks, `checkEligibility` returns the quiz-average ineligibility exactly when
the course contains at least one quiz lecture — graded or not — AND the
progress record's stored `quizScores` list (one retained score per quiz, not
the full `QuizAttempt` history) is nonempty with mean below
`course.certificate.passingScore`; when the course has no quiz lecture the
eligibility data carries a quiz average of 100. -/
theorem quizBelow_characterization (course : Course) (e : EnrollmentState)
    (p : ProgressRec) (now : ℕ)
    (hen : course.certificate.enabled = true)
    (hcomp : orDefault course.certificate.completionRequirement 100 ≤ p.completionPercentage) :
    (checkEligibility (some course) (some e) none (some p) now =
        .ineligible .quizBelow none ↔
      (hasQuizzes course = true ∧ p.quizScores ≠ [] ∧
        quizAvg p.quizScores < orDefault course.certificate.passingScore 70)) ∧
      (hasQuizzes course = false →
        checkEligibility (some course) (some e) none (some p) now =
          .eligible ⟨p.completionPercentage, 100, p.completedAt.getD now,
            course.totalDuration, p.completionTime⟩) := by
  have hnlt : ¬p.completionPercentage < orDefault course.certificate.completionRequirement 100 :=
    Nat.not_lt.mpr hcomp
  by_cases hq : hasQuizzes course = true ∧ p.quizScores ≠ []
  · by_cases hlt : (p.quizScores.map (fun qs => qs.score)).sum <
        orDefault course.certificate.passingScore 70 * p.quizScores.length
    · have hres : checkEligibility (some course) (some e) none (some p) now =
          .ineligible .quizBelow none := by
        unfold checkEligibility
        dsimp only
        simp [hen, hnlt, hq, hlt]
      refine ⟨?_, ?_⟩
      · rw [hres]
        exact ⟨fun _ => ⟨hq.1, hq.2, (sum_lt_mul_iff_quizAvg_lt _ _ hq.2).mp hlt⟩,
          fun _ => rfl⟩
      · intro hfalse
        exact absurd hq.1 (by simp [hfalse])
    · have hres : checkEligibility (some course) (some e) none (some p) now =
          .eligible ⟨p.completionPercentage, quizAvg p.quizScores,
            p.completedAt.getD now, course.totalDuration, p.completionTime⟩ := by
        unfold checkEligibility
        dsimp only
        simp [hen, hnlt, hq, hlt]
      refine ⟨?_, ?_⟩
      · rw [hres]
        refine ⟨fun h => absurd h (by simp), fun hrhs => ?_⟩
        exact absurd ((sum_lt_mul_iff_quizAvg_lt _ _ hrhs.2.1).mpr hrhs.2.2) hlt
      · intro hfalse
        exact absurd hq.1 (by simp [hfalse])
  · have hres : checkEligibility (some course) (some e) none (some p) now =
        .eligible ⟨p.completionPercentage, 100, p.completedAt.getD now,
          course.totalDuration, p.completionTime⟩ := by
      unfold checkEligibility
      dsimp only
      simp only [hen]
      simp [hnlt, hq]
    refine ⟨?_, fun _ => hres⟩
    rw [hres]
    refine ⟨fun h => absurd h (by simp), fun hrhs => absurd ⟨hrhs.1, hrhs.2.1⟩ hq⟩

/-- C2 counterexample.  A course whose only quiz lecture is ungraded still
triggers the quiz-average ineligibility (retained score 50, threshold 70):
the check keys on `lecture.type === 'quiz'` alone, not on graded quizzes. -/
theorem quizBelow_without_graded_quiz :
    checkEligibility (some courseUngradedQuiz) (some ({} : EnrollmentState)) none
        (some progressQuiz50) 0 = .ineligible .quizBelow none ∧
      courseUngradedQuiz.sections.all
        (fun s => s.lectures.all (fun l => !(l.type == .quiz && l.isGraded))) = true := by
  refine ⟨by decide, by decide⟩

/-- Witness for `quizBelow_characterization`: the ungraded-quiz course with a
retained score of 50 at 100% completion. -/
theorem quizBelow_characterization_witness :
    (checkEligibility (some courseUngradedQuiz) (some ({} : EnrollmentState)) none
        (some progressQuiz50) 0 = .ineligible .quizBelow none ↔
      (hasQuizzes courseUngradedQuiz = true ∧ progressQuiz50.quizScores ≠ [] ∧
        quizAvg progressQuiz50.quizScores <
          orDefault courseUngradedQuiz.certificate.passingScore 70)) ∧
      (hasQuizzes courseUngradedQuiz = false →
        checkEligibility (some courseUngradedQuiz) (some ({} : EnrollmentState)) none
            (some progressQuiz50) 0 =
          .eligible ⟨progressQuiz50.completionPercentage, 100,
            progressQuiz50.completedAt.getD 0, courseUngradedQuiz.totalDuration,
            progressQuiz50.completionTime⟩) :=
  quizBelow_characterization courseUngradedQuiz {} progressQuiz50 0 (by decide) (by decide)

/-- C5 (amended).  For a `single` question the grading is exactly the claimed
rule: correct iff exactly one index is selected and it lies in the
correct-answer set.  For a `multiple` question the code tests equal array
lengths plus mutual containment; for duplicate-free arrays this coincides
with set equality of the selected and correct index sets, but an answer array
with duplicated indices can be set-equal to the correct set and still be
graded incorrect (see the counterexample). -/
theorem gradeAnswer_characterization :
    (∀ (q : Question) (sel : List ℕ), q.qtype = .single →
        (gradeAnswer q sel = true ↔ ∃ i, sel = [i] ∧ i ∈ q.correctAnswers)) ∧
      (∀ (q : Question) (sel : List ℕ), q.qtype = .multiple → sel.Nodup →
          q.correctAnswers.Nodup →
        (gradeAnswer q sel = true ↔ sel.toFinset = q.correctAnswers.toFinset)) := by
  constructor
  · intro q sel hq
    obtain ⟨qt, corr⟩ := q
    cases hq
    simp only [gradeAnswer, Bool.and_eq_true, beq_iff_eq, List.contains, List.elem_iff]
    constructor
    · rintro ⟨hlen, hmem⟩
      obtain ⟨a, rfl⟩ := List.length_eq_one.mp hlen
      exact ⟨a, rfl, by simpa using hmem⟩
    · rintro ⟨i, rfl, hi⟩
      exact ⟨rfl, by simpa using hi⟩
  · intro q sel hq hns hnc
    obtain ⟨qt, corr⟩ := q
    cases hq
    simp only [gradeAnswer, Bool.and_eq_true, beq_iff_eq, List.all_eq_true,
      List.contains, List.elem_iff] at hnc hns ⊢
    constructor
    · rintro ⟨⟨-, hsub⟩, hsup⟩
      ext a
      simp only [List.mem_toFinset]
      exact ⟨fun ha => hsup a ha, fun ha => hsub a ha⟩
    · intro hf
      have hmem : ∀ a, a ∈ corr ↔ a ∈ sel := by
        intro a
        rw [← List.mem_toFinset, ← List.mem_toFinset, hf]
      refine ⟨⟨?_, fun a ha => (hmem a).mp ha⟩, fun a ha => (hmem a).mpr ha⟩
      calc corr.length = corr.toFinset.card := (List.toFinset_card_of_nodup hnc).symm
        _ = sel.toFinset.card := by rw [hf]
        _ = sel.length := List.toFinset_card_of_nodup hns

/-- C5 counterexample.  Against the correct set \x7b0, 2\x7d the duplicated
selection `[0, 0, 2]` is set-equal to the correct set (no missing, no extra
index) yet graded incorrect, because the code compares array lengths. -/
theorem multiple_set_equality_fails_on_duplicates :
    gradeAnswer ⟨.multiple, [0, 2]⟩ [0, 0, 2] = false ∧
      ([0, 0, 2] : List ℕ).toFinset = ([0, 2] : List ℕ).toFinset := by
  refine ⟨by decide, by decide⟩

/-- Witness for `gradeAnswer_characterization`: a graded single question and a
graded multiple question with duplicate-free answers. -/
theorem gradeAnswer_characterization_witness :
    (gradeAnswer ⟨.single, [2]⟩ [2] = true ↔ ∃ i, ([2] : List ℕ) = [i] ∧ i ∈ [2]) ∧
      (gradeAnswer ⟨.multiple, [0, 2]⟩ [2, 0] = true ↔
        ([2, 0] : List ℕ).toFinset = ([0, 2] : List ℕ).toFinset) :=
  ⟨gradeAnswer_characterization.1 ⟨.single, [2]⟩ [2] rfl,
    gradeAnswer_characterization.2 ⟨.multiple, [0, 2]⟩ [2, 0] rfl (by decide) (by decide)⟩

/-- The correct-answer counter over the enumerated grading loop equals the
number of correctly graded `(question, answer)` pairs, for any start index
within range. -/
theorem correctCount_enumFrom (qs : List Question) :
    ∀ (answers : List (List ℕ)) (n : ℕ), n + answers.length ≤ qs.length →
    correctCount ((answers.enumFrom n).map (fun p =>
        (⟨p.1, p.2, gradeAnswer (qs.getD p.1 ⟨.single, []⟩) p.2⟩ : ProcessedAnswer))) =
      (((qs.drop n).zip answers).filter (fun p => gradeAnswer p.1 p.2)).length := by
  intro answers
  induction answers with
  | nil => intro n _; simp [correctCount]
  | cons a as ih =>
      intro n h
      have hn : n < qs.length := by
        simp only [List.length_cons] at h
        omega
      have hdrop : qs.drop n = qs.getD n ⟨.single, []⟩ :: qs.drop (n + 1) := by
        rw [List.getD_eq_getElem qs ⟨.single, []⟩ hn]
        exact List.drop_eq_getElem_cons hn
      have hih := ih (n + 1) (by simp only [List.length_cons] at h; omega)
      simp only [List.enumFrom_cons, List.map_cons, hdrop, List.zip_cons_cons,
        List.filter_cons, correctCount] at hih ⊢
      by_cases hg : gradeAnswer (qs.getD n ⟨QType.single, []⟩) a = true
      · rw [if_pos hg, if_pos hg]
        simp only [List.length_cons]
        omega
      · rw [if_neg hg, if_neg hg]
        exact hih

/-- C6 (amended).  Whenever the submission has no more answers than the quiz
has questions and the quiz is nonempty, the aggregate score is
`Math.round((correctCount / totalQuestions) * 100)` where `correctCount`
counts the correctly graded question/answer pairs; for a quiz with zero
questions grading does not crash, but the score is `NaN`
(`Math.round((0/0) * 100)`), not 0. -/
theorem quizScore_formula :
    (∀ (questions : List Question) (answers : List (List ℕ)),
        answers.length ≤ questions.length → questions ≠ [] →
        quizScore questions answers =
          .value (roundPct
            (((questions.zip answers).filter (fun p => gradeAnswer p.1 p.2)).length)
            questions.length)) ∧
      quizScore [] [] = .nan := by
  constructor
  · intro questions answers hle hne
    unfold quizScore processAnswers
    rw [if_neg (by omega : ¬questions.length < answers.length)]
    have hlen0 : ¬questions.length = 0 := by
      simpa using fun hq => hne (List.length_eq_zero.mp hq)
    dsimp only
    rw [if_neg hlen0]
    have hcc := correctCount_enumFrom questions answers 0 (by omega)
    simp only [List.drop_zero] at hcc
    rw [List.enum, hcc]
  · rfl

/-- C6 counterexample.  An empty quiz grades without crashing but its score is
`NaN`, which is not the claimed score 0. -/
theorem quizScore_empty_quiz_nan :
    quizScore [] [] = .nan ∧ ScoreResult.nan ≠ .value 0 := by
  refine ⟨rfl, by decide⟩

/-- Witness for `quizScore_formula`: a two-question quiz with one correct and
one incorrect answer. -/
theorem quizScore_formula_witness :
    quizScore [⟨.single, [2]⟩, ⟨.single, [0]⟩] [[2], [1]] =
      .value (roundPct
        ((([(⟨.single, [2]⟩ : Question), ⟨.single, [0]⟩].zip [[2], [1]]).filter
          (fun p => gradeAnswer p.1 p.2)).length)
        ([(⟨.single, [2]⟩ : Question), ⟨.single, [0]⟩].length)) :=
  quizScore_formula.1 [⟨.single, [2]⟩, ⟨.single, [0]⟩] [[2], [1]] (by decide) (by decide)

end Aiq
